import Mathlib

/-!
Verification of the WebDAV client (`client.py`): path resolution, the
request/response classification layer, per-operation status-code contracts,
and the recursive directory upload.

The HTTP transport (`requests`), the filesystem (`os.walk`, `open`) and the
URL builder (`corportal.utils.urls.construct_url`) are external collaborators;
they are modelled as explicit inputs (a server function, a directory tree
value) or, where the repository gives no code, from the spec's description.
-/

namespace WebDav

/- ## Path utilities (POSIX `os.path`) -/

/-- Auxiliary scanner for `lstripSep`: drops every leading `'/'` character. -/
def lstripSepAux : List Char → List Char
  | [] => []
  | c :: cs => if c = '/' then lstripSepAux cs else c :: cs

/-- Python `s.lstrip(os.path.sep)` with POSIX separator `'/'`: removes all
leading separator characters. -/
def lstripSep (s : String) : String := ⟨lstripSepAux s.data⟩

/-- Does the string start with the path separator? -/
def strHeadIsSep (s : String) : Bool :=
  match s.data with
  | [] => false
  | c :: _ => c = '/'

/-- Does the string end with the path separator? -/
def strLastIsSep (s : String) : Bool :=
  match s.data.getLast? with
  | some c => c = '/'
  | none => false

/-- Python `os.path.join(a, b)` (POSIX, two arguments): an absolute second
segment overrides; otherwise the segments are concatenated, inserting a
separator unless `a` is empty or already ends with one. -/
def posixJoin (a b : String) : String :=
  if strHeadIsSep b then b
  else if a.data.isEmpty || strLastIsSep a then a ++ b
  else a ++ "/" ++ b

/- ## Python `str.split(sep)` for a non-empty separator -/

/-- Scanner for `pySplit`: splits the character list at every (leftmost,
non-overlapping) occurrence of `sep`. The fuel argument is an upper bound on
the number of scanning steps; it is instantiated with the input length, which
suffices because every step consumes at least one character. -/
def pySplitAux (sep : List Char) (fuel : Nat) (l : List Char) (acc : List Char) :
    List (List Char) :=
  match fuel, l with
  | _, [] => [acc.reverse]
  | 0, rest => [acc.reverse ++ rest]
  | fuel + 1, c :: cs =>
    if sep.isPrefixOf (c :: cs) then
      acc.reverse :: pySplitAux sep fuel (List.drop sep.length (c :: cs)) []
    else
      pySplitAux sep fuel cs (c :: acc)

/-- Python `s.split(sep)`: splits `s` on every occurrence of the substring
`sep`, left to right, non-overlapping. (Python raises for an empty separator;
that case is never reached well-formed here and is mapped to `[s]`.) -/
def pySplit (s sep : String) : List String :=
  if sep.data.isEmpty then [s]
  else (pySplitAux sep.data s.data.length s.data []).map (fun l => ⟨l⟩)

/- ## The local filesystem, and `os.walk` -/

mutual
/-- A directory of the local filesystem: its entry name, the names of the
regular files it contains, and its subdirectories, both in listing order. -/
inductive FSTree where
  | node (name : String) (files : List String) (dirs : FSForest)
inductive FSForest where
  | nil
  | cons (d : FSTree) (ds : FSForest)
end

/-- Entry name of a directory. -/
def FSTree.name : FSTree → String
  | .node n _ _ => n

/-- File names of a directory. -/
def FSTree.files : FSTree → List String
  | .node _ f _ => f

/-- Subdirectories of a directory. -/
def FSTree.dirs : FSTree → FSForest
  | .node _ _ d => d

/-- Entry names of a forest of directories. -/
def FSForest.names : FSForest → List String
  | .nil => []
  | .cons d ds => d.name :: ds.names

mutual
/-- Modelled from the spec: `os.walk(top)` — the "recursive directory-listing
primitive" (§6), a top-down depth-first traversal yielding, for every
directory of the subtree, the triple `(dirpath, dirnames, filenames)`; the
path of a subdirectory is its parent's path joined with its entry name. -/
def osWalk (top : String) : FSTree → List (String × List String × List String)
  | .node _ files dirs => (top, dirs.names, files) :: osWalkForest top dirs
/-- Depth-first traversal of the subdirectories, in listing order. -/
def osWalkForest (top : String) : FSForest → List (String × List String × List String)
  | .nil => []
  | .cons d ds => osWalk (posixJoin top d.name) d ++ osWalkForest top ds
end

/-- Source `filepath_generator(path)` from `client.py`: for every `(path, dirs,
files)` entry of `os.walk`, yields `os.path.join(path, file_)` for every
file, in walk order. -/
def filepath_generator (path : String) (tree : FSTree) : List String :=
  (osWalk path tree).flatMap (fun entry => entry.2.2.map (fun f => posixJoin entry.1 f))

/- ## URLs, responses, errors -/

deriving instance DecidableEq for Except

/-- Modelled from the spec: the result of `construct_url` from
`corportal.utils.urls` (an external URL-construction helper, §4.1/§6): "an
absolute URL string/object from the given location, path, and optional port"
— a pass-through formatting concern, so it is modelled as the record of its
three inputs. -/
structure Url where
  netloc : String
  path : String
  port : Option Nat
deriving DecidableEq

/-- Modelled from the spec: `construct_url(netloc=..., path=..., port=...)`;
the call in `url` passes no port, which stands for its default `None`. -/
def construct_url (netloc : String) (path : String) (port : Option Nat) : Url :=
  ⟨netloc, path, port⟩

/-- The response headers the client reads. The `content-length` value is
modelled as the integer the Python code obtains from `int(...)` on it; the
`last-modified` value is kept as the raw header string, which the client
parses itself. `none` means the header is absent. -/
structure Headers where
  contentLength : Option Nat
  lastModified : Option String
deriving DecidableEq

/-- An HTTP response as the client observes it: status code, reason phrase,
headers, body bytes. -/
structure Response where
  status_code : Nat
  reason : String
  headers : Headers
  content : List Nat
deriving DecidableEq

/-- Source `WebDavError(method, status_code, reason)` from `client.py`. -/
structure WebDavError where
  method : String
  status_code : Nat
  reason : String
deriving DecidableEq

/-- The exceptions that can escape the modelled code: `WebDavError` raised by
`_send`, and Python's `ValueError` (raised by tuple unpacking in
`upload_dir`, or by `datetime.strptime` on a malformed header). -/
inductive PyErr where
  | webdav (e : WebDavError)
  | valueError
deriving DecidableEq

/-- The `local_path_or_fileobj` argument of `upload`: either a local path
string (the `six.string_types` branch) or an already-open byte stream. -/
inductive UploadSource where
  | path (p : String)
  | fileobj (contents : List Nat)
deriving DecidableEq

/-- Observable side effects of an operation, in order: opening / closing a
local file, and issuing one HTTP request with a verb, a target URL and an
optional request body source. -/
inductive Event where
  | fileOpen (p : String) (mode : String)
  | fileClose (p : String)
  | request (method : String) (url : Url) (data : Option UploadSource)
deriving DecidableEq

/-- The remote server, modelled as the function from the request's verb and
URL to the response it returns. -/
def Server : Type := String → Url → Response

/-- Django `ContentFile` wrapping downloaded bytes; external collaborator,
modelled as the bytes it wraps. -/
structure ContentFile where
  content : List Nat
deriving DecidableEq

/- ## The client -/

/-- Source `WebDavClient(base_url, base_path, port=None)`: the immutable endpoint
configuration. (The `requests` session object carries no observable state in
this model; each request is given by the `Server` function.) -/
structure WebDavClient where
  base_url : String
  base_path : String
  port : Option Nat

namespace WebDavClient

/-- Verb constant `HEAD`. -/
def HEAD : String := "HEAD"

/-- Verb constant `MKDIR = 'MKCOL'`. -/
def MKDIR : String := "MKCOL"

/-- Verb constant `PUT`. -/
def PUT : String := "PUT"

/-- Verb constant `DELETE`. -/
def DELETE : String := "DELETE"

/-- Verb constant `GET`. -/
def GET : String := "GET"

/-- The `EXPECTED_CODES` table: per-operation acceptable status codes. -/
def EXPECTED_CODES : String → List Nat
  | "mkdir" => [201, 301, 405]
  | "delete" => [204]
  | "upload" => [200, 201, 204]
  | "download" => [200]
  | "exists" => [200, 301, 404]
  | "size" => [200, 301]
  | "modified_time" => [200, 301, 404]
  | _ => []

/-- Constant `NOT_FOUND_CODE = 404`. -/
def NOT_FOUND_CODE : Nat := 404

/-- Method `get_full_path(relative_path)`: joins the configured base path with the
relative path stripped of leading separators. -/
def get_full_path (c : WebDavClient) (relative_path : String) : String :=
  posixJoin c.base_path (lstripSep relative_path)

/-- Method `_send(method, remote_path, expected_codes, **kwargs)`: resolves the full
path, builds the URL with the configured port, issues the request (recorded
as an `Event.request` carrying the body source, if any), and raises
`WebDavError(method, status_code, reason)` when the status code is not in
`expected_codes`, otherwise returns the response. -/
def _send (c : WebDavClient) (server : Server) (method : String) (remote_path : String)
    (expected_codes : List Nat) (data : Option UploadSource) :
    List Event × Except PyErr Response :=
  let full_remote_path := c.get_full_path remote_path
  let url := construct_url c.base_url full_remote_path c.port
  let response := server method url
  ([.request method url data],
    if response.status_code ∈ expected_codes then .ok response
    else .error (.webdav ⟨method, response.status_code, response.reason⟩))

/-- Method `mkdir(remote_path)`: MKCOL with the `mkdir` expected codes; returns
nothing on success. -/
def mkdir (c : WebDavClient) (server : Server) (remote_path : String) :
    List Event × Except PyErr Unit :=
  let (ev, r) := c._send server MKDIR remote_path (EXPECTED_CODES "mkdir") none
  (ev, r.map (fun _ => ()))

/-- Method `delete(remote_path)`: DELETE with the `delete` expected codes; a raised
`WebDavError` is caught and ignored (`except WebDavError: pass`). -/
def delete (c : WebDavClient) (server : Server) (remote_path : String) :
    List Event × Except PyErr Unit :=
  let (ev, r) := c._send server DELETE remote_path (EXPECTED_CODES "delete") none
  match r with
  | .ok _ => (ev, .ok ())
  | .error (.webdav _) => (ev, .ok ())
  | .error e => (ev, .error e)

/-- Method `upload(local_path_or_fileobj, remote_path_with_name, mode='rb')`: for a
path string, the local file is opened (in `mode`), streamed as the request
body and closed when the `with` block exits — whether the request succeeded
or raised; for a file object the stream is sent as-is. Returns
`remote_path_with_name` on an expected status code. -/
def upload (c : WebDavClient) (server : Server) (local_path_or_fileobj : UploadSource)
    (remote_path_with_name : String) (mode : String) :
    List Event × Except PyErr String :=
  match local_path_or_fileobj with
  | .path p =>
    let (ev, r) := c._send server PUT remote_path_with_name (EXPECTED_CODES "upload")
      (some (.path p))
    ([.fileOpen p mode] ++ ev ++ [.fileClose p], r.map (fun _ => remote_path_with_name))
  | .fileobj contents =>
    let (ev, r) := c._send server PUT remote_path_with_name (EXPECTED_CODES "upload")
      (some (.fileobj contents))
    (ev, r.map (fun _ => remote_path_with_name))

/-- Method `download(local_path_file)`: GET with the `download` expected codes;
wraps the response body in a `ContentFile`. (The `stream=True` flag only
affects buffering, not the observable classification, and is not modelled.) -/
def download (c : WebDavClient) (server : Server) (local_path_file : String) :
    List Event × Except PyErr ContentFile :=
  let (ev, r) := c._send server GET local_path_file (EXPECTED_CODES "download") none
  (ev, r.map (fun resp => ⟨resp.content⟩))

/-- Method `exists(remote_path)` (named `exists_` because `exists` is a Lean
keyword): HEAD with the `exists` expected codes; returns
`status_code != NOT_FOUND_CODE`. -/
def exists_ (c : WebDavClient) (server : Server) (remote_path : String) :
    List Event × Except PyErr Bool :=
  let (ev, r) := c._send server HEAD remote_path (EXPECTED_CODES "exists") none
  (ev, r.map (fun resp => resp.status_code != NOT_FOUND_CODE))

/-- Method `size(remote_path)`: HEAD with the `size` expected codes; returns
`int(response.headers.get('content-length', 0))`, i.e. the header's integer
value, or `0` when the header is absent. -/
def size (c : WebDavClient) (server : Server) (remote_path : String) :
    List Event × Except PyErr Nat :=
  let (ev, r) := c._send server HEAD remote_path (EXPECTED_CODES "size") none
  (ev, r.map (fun resp => resp.headers.contentLength.getD 0))

/-- Method `url(relative_path)`: pure URL resolution — `construct_url` is called
with the netloc and the resolved full path only, so the port takes its
default `None` even when the client was configured with one. -/
def url (c : WebDavClient) (relative_path : String) : Url :=
  let full_path := c.get_full_path relative_path
  construct_url c.base_url full_path none

end WebDavClient

/- ## The header timestamp format -/

/-- Constant `HEADERS_DATETIME_PATTERN = '%a, %d %b %Y %H:%M:%S GMT'`. -/
def HEADERS_DATETIME_PATTERN : String := "%a, %d %b %Y %H:%M:%S GMT"

/-- A `datetime.datetime` value as far as this client uses it: the six
calendar/clock fields parsed from the `last-modified` header. -/
structure PyDatetime where
  year : Nat
  month : Nat
  day : Nat
  hour : Nat
  minute : Nat
  second : Nat
deriving DecidableEq

/-- The `%a` weekday abbreviations. -/
def weekdayAbbrevs : List String := ["Mon", "Tue", "Wed", "Thu", "Fri", "Sat", "Sun"]

/-- The `%b` month abbreviations, in month order. -/
def monthAbbrevs : List String :=
  ["Jan", "Feb", "Mar", "Apr", "May", "Jun", "Jul", "Aug", "Sep", "Oct", "Nov", "Dec"]

/-- ASCII lowering, for the case-insensitive matching `strptime` performs. -/
def lowerChars (l : List Char) : List Char := l.map Char.toLower

/-- Tries each alternative in turn as a case-insensitive prefix of the input;
returns its position in the list, starting from `start`, and the rest of the
input. -/
def matchAbbrevAux (alts : List String) (start : Nat) (l : List Char) :
    Option (Nat × List Char) :=
  match alts with
  | [] => none
  | a :: rest =>
    if (lowerChars a.data).isPrefixOf (lowerChars l) then
      some (start, l.drop a.data.length)
    else
      matchAbbrevAux rest (start + 1) l

/-- Matches one of the abbreviations as a prefix; positions are 1-based so
that a month abbreviation maps to its month number. -/
def matchAbbrev (alts : List String) (l : List Char) : Option (Nat × List Char) :=
  matchAbbrevAux alts 1 l

/-- Splits the input into its leading run of decimal digits and the rest. -/
def takeDigits : List Char → List Char × List Char
  | [] => ([], [])
  | c :: cs =>
    if c.isDigit then
      let (d, r) := takeDigits cs
      (c :: d, r)
    else ([], c :: cs)

/-- Value of a digit run. -/
def digitsVal (l : List Char) : Nat :=
  l.foldl (fun n c => 10 * n + (c.toNat - 48)) 0

/-- Parses a numeric field of the pattern: between `minDigits` and
`maxDigits` digits whose value lies in `[lo, hi]`. -/
def parseNumField (minDigits maxDigits lo hi : Nat) (l : List Char) :
    Option (Nat × List Char) :=
  let (d, r) := takeDigits l
  if minDigits ≤ d.length ∧ d.length ≤ maxDigits then
    let v := digitsVal d
    if lo ≤ v ∧ v ≤ hi then some (v, r) else none
  else none

/-- Matches a literal piece of the pattern as a prefix of the input. -/
def dropLit (pat : String) (l : List Char) : Option (List Char) :=
  if pat.data.isPrefixOf l then some (l.drop pat.data.length) else none

/-- Gregorian leap year. -/
def isLeapYear (y : Nat) : Bool := (y % 4 = 0 && y % 100 ≠ 0) || y % 400 = 0

/-- Number of days of a month. -/
def daysInMonth (year month : Nat) : Nat :=
  if month = 2 then (if isLeapYear year then 29 else 28)
  else if month ∈ ([4, 6, 9, 11] : List Nat) then 30 else 31

/-- Modelled from the spec: `datetime.strptime(s, HEADERS_DATETIME_PATTERN)`
(the `datetime` library is external). Parses the fixed format
`"<weekday>, <day> <month> <year> <hour>:<minute>:<second> GMT"`: a weekday
abbreviation, a 1–2 digit day valid for the month, a month abbreviation, a
4-digit year, a clock time, the literal `GMT`, and nothing further; field
values outside their calendar/clock ranges are rejected (`ValueError`),
signalled here by `none`. -/
def strptimeHeaders (s : String) : Option PyDatetime := do
  let (_, r1) ← matchAbbrev weekdayAbbrevs s.data
  let r2 ← dropLit ", " r1
  let (day, r3) ← parseNumField 1 2 1 31 r2
  let r4 ← dropLit " " r3
  let (month, r5) ← matchAbbrev monthAbbrevs r4
  let r6 ← dropLit " " r5
  let (year, r7) ← parseNumField 4 4 0 9999 r6
  let r8 ← dropLit " " r7
  let (hour, r9) ← parseNumField 1 2 0 23 r8
  let r10 ← dropLit ":" r9
  let (minute, r11) ← parseNumField 1 2 0 59 r10
  let r12 ← dropLit ":" r11
  let (second, r13) ← parseNumField 1 2 0 59 r12
  let r14 ← dropLit " GMT" r13
  if r14.isEmpty ∧ day ≤ daysInMonth year month then
    return ⟨year, month, day, hour, minute, second⟩
  else none

namespace WebDavClient

/-- Method `modified_time(remote_path)`: HEAD with the `modified_time` expected
codes; returns `None` when the `last-modified` header is absent, otherwise
the timestamp `datetime.strptime` parses from it (a malformed header value
makes `strptime` raise `ValueError`). -/
def modified_time (c : WebDavClient) (server : Server) (remote_path : String) :
    List Event × Except PyErr (Option PyDatetime) :=
  let (ev, r) := c._send server HEAD remote_path (EXPECTED_CODES "modified_time") none
  match r with
  | .error e => (ev, .error e)
  | .ok resp =>
    match resp.headers.lastModified with
    | none => (ev, .ok none)
    | some last_modified =>
      match strptimeHeaders last_modified with
      | some dt => (ev, .ok (some dt))
      | none => (ev, .error .valueError)

/-- The body of the `upload_dir` loop for one walked file:
`_, relative_path_local_file = local_file.split(local_path)` — a `ValueError`
unless the split yields exactly two pieces — then an upload of the file to
`os.path.join(remote_path, relative_path_local_file.lstrip(os.path.sep))`. -/
def uploadDirStep (c : WebDavClient) (server : Server) (remote_path : String)
    (local_path : String) (local_file : String) : List Event × Except PyErr Unit :=
  match pySplit local_file local_path with
  | [_, relative_path_local_file] =>
    let _remote_path := posixJoin remote_path (lstripSep relative_path_local_file)
    let (ev, r) := c.upload server (.path local_file) _remote_path "rb"
    (ev, r.map (fun _ => ()))
  | _ => ([], .error .valueError)

/-- The `upload_dir` loop over the generated file paths: strictly sequential,
and the first exception aborts the remaining traversal. -/
def uploadDirGo (c : WebDavClient) (server : Server) (remote_path : String)
    (local_path : String) : List String → List Event × Except PyErr Unit
  | [] => ([], .ok ())
  | f :: fs =>
    let (ev, r) := uploadDirStep c server remote_path local_path f
    match r with
    | .ok _ =>
      let (ev2, r2) := uploadDirGo c server remote_path local_path fs
      (ev ++ ev2, r2)
    | .error e => (ev, .error e)

/-- Method `upload_dir(remote_path, local_path)`: iterates
`filepath_generator(local_path)` over the given local tree and uploads each
file in walk order. -/
def upload_dir (c : WebDavClient) (server : Server) (remote_path : String)
    (local_path : String) (tree : FSTree) : List Event × Except PyErr Unit :=
  uploadDirGo c server remote_path local_path (filepath_generator local_path tree)

end WebDavClient

/- ## Helpers for stating the properties -/

/-- The URL `_send` targets for a given remote path: netloc, resolved full
path, and the configured port. -/
def sendUrl (c : WebDavClient) (remote_path : String) : Url :=
  construct_url c.base_url (c.get_full_path remote_path) c.port

/-- The `(verb, URL)` pairs of the requests among a list of events. -/
def requestsOf (evs : List Event) : List (String × Url) :=
  evs.filterMap (fun e =>
    match e with
    | .request m u _ => some (m, u)
    | _ => none)

/-- The local files opened among a list of events, in order. -/
def opensOf (evs : List Event) : List String :=
  evs.filterMap (fun e =>
    match e with
    | .fileOpen p _ => some p
    | _ => none)

/-- The target URL `upload_dir` computes for a walked file whose split-off
relative part is `rel`. -/
def uploadTarget (c : WebDavClient) (remote_path : String) (rel : String) : Url :=
  sendUrl c (posixJoin remote_path (lstripSep rel))

/-- The events one file upload of `upload_dir` produces (whether the PUT is
accepted or not): open the local file, PUT it to the target computed from its
split-off relative part `rel`, close it. -/
def uploadEventsFor (c : WebDavClient) (remote_path : String) (f : String)
    (rel : String) : List Event :=
  [.fileOpen f "rb",
   .request "PUT" (uploadTarget c remote_path rel) (some (.path f)),
   .fileClose f]

/- ## Concrete instances used by the witnesses and the counterexample -/

/-- A server answering every request with the same status code, reason and
headers, and an empty body. -/
def constServer (code : Nat) (reason : String) (h : Headers) : Server :=
  fun _ _ => ⟨code, reason, h, []⟩

/-- No headers at all. -/
def noHeaders : Headers := ⟨none, none⟩

/-- A concrete client: netloc `example.com`, base path `/base`, no port. -/
def cW : WebDavClient := ⟨"example.com", "/base", none⟩

/-- A concrete client configured with a port. -/
def cWport : WebDavClient := ⟨"example.com", "/base", some 8080⟩

/-- The spec's example tree: `root/a.txt` and `root/sub/b.txt`. -/
def wTree : FSTree := .node "root" ["a.txt"] (.cons (.node "sub" ["b.txt"] .nil) .nil)

/-- The relative parts `upload_dir`'s split produces on `wTree`'s files. -/
def wRel : String → String := fun f => if f = "root/a.txt" then "/a.txt" else "/sub/b.txt"

/-- A server that rejects the PUT of the first `wTree` file with 403 and
accepts everything else with 201. -/
def failServer : Server := fun _ u =>
  if u.path = "/base/dest/a.txt" then ⟨403, "Forbidden", noHeaders, []⟩
  else ⟨201, "Created", noHeaders, []⟩

/- # Theorems -/

/- ## Basic lemmas on the path utilities -/

/-- The stripped path never starts with a separator. -/
theorem lstripSepAux_head_not_sep (l : List Char) :
    lstripSepAux l = [] ∨ ∃ c cs, lstripSepAux l = c :: cs ∧ c ≠ '/' := by
  induction l with
  | nil => exact Or.inl rfl
  | cons c cs ih =>
    by_cases h : c = '/'
    · simpa [lstripSepAux, h] using ih
    · exact Or.inr ⟨c, cs, by simp [lstripSepAux, h], h⟩

/-- Stripping ignores one more leading separator. -/
theorem lstripSep_cons_sep (p : String) : lstripSep ("/" ++ p) = lstripSep p := by
  have hdata : ("/" ++ p).data = '/' :: p.data := by
    simp [String.data_append "/" p]
  simp [lstripSep, hdata, lstripSepAux]

/-- The stripped path does not begin with the separator. -/
theorem strHeadIsSep_lstripSep (p : String) : strHeadIsSep (lstripSep p) = false := by
  rcases lstripSepAux_head_not_sep p.data with h | ⟨c, cs, h, hc⟩
  · simp [strHeadIsSep, lstripSep, h]
  · simp [strHeadIsSep, lstripSep, h, hc]

/-- Joining a stripped path onto a base extends the base. -/
theorem posixJoin_lstripSep_extends (a p : String) :
    ∃ t, posixJoin a (lstripSep p) = a ++ t := by
  rw [posixJoin, strHeadIsSep_lstripSep]
  by_cases h : (a.data.isEmpty || strLastIsSep a) = true
  · exact ⟨lstripSep p, by simp [h]⟩
  · exact ⟨"/" ++ lstripSep p, by simp [h, String.append_assoc]⟩

/- ## The dispatch primitive -/

open WebDavClient

/-- The dispatch primitive, written out: one request to the resolved URL,
and the response classified against the expected codes. -/
theorem _send_eq (c : WebDavClient) (server : Server) (m rp : String)
    (codes : List Nat) (d : Option UploadSource) :
    c._send server m rp codes d =
      ([.request m (sendUrl c rp) d],
       if (server m (sendUrl c rp)).status_code ∈ codes then
         .ok (server m (sendUrl c rp))
       else .error (.webdav ⟨m, (server m (sendUrl c rp)).status_code,
         (server m (sendUrl c rp)).reason⟩)) := rfl

/-- The events of one dispatch: exactly one request, with the resolved URL. -/
theorem _send_fst (c : WebDavClient) (server : Server) (m rp : String)
    (codes : List Nat) (d : Option UploadSource) :
    (c._send server m rp codes d).1 = [.request m (sendUrl c rp) d] := rfl

/-- Dispatch on an expected status code returns the response. -/
theorem _send_snd_ok (c : WebDavClient) (server : Server) (m rp : String)
    (codes : List Nat) (d : Option UploadSource)
    (h : (server m (sendUrl c rp)).status_code ∈ codes) :
    (c._send server m rp codes d).2 = .ok (server m (sendUrl c rp)) := by
  have he : (c._send server m rp codes d).2 =
      (if (server m (sendUrl c rp)).status_code ∈ codes then
        .ok (server m (sendUrl c rp))
      else .error (.webdav ⟨m, (server m (sendUrl c rp)).status_code,
        (server m (sendUrl c rp)).reason⟩)) := rfl
  rw [he, if_pos h]

/-- Dispatch on an unexpected status code raises `WebDavError(method, code,
reason)`. -/
theorem _send_snd_err (c : WebDavClient) (server : Server) (m rp : String)
    (codes : List Nat) (d : Option UploadSource)
    (h : (server m (sendUrl c rp)).status_code ∉ codes) :
    (c._send server m rp codes d).2 = .error (.webdav ⟨m,
      (server m (sendUrl c rp)).status_code, (server m (sendUrl c rp)).reason⟩) := by
  have he : (c._send server m rp codes d).2 =
      (if (server m (sendUrl c rp)).status_code ∈ codes then
        .ok (server m (sendUrl c rp))
      else .error (.webdav ⟨m, (server m (sendUrl c rp)).status_code,
        (server m (sendUrl c rp)).reason⟩)) := rfl
  rw [he, if_neg h]

/- ## C2: path resolution -/

/-- C2: for every base path and relative path `p`, `get_full_path p` is the
base path joined with `p` stripped of its leading separators, the result
always extends the base path (never an absolute override), and resolution is
insensitive to a leading separator: `get_full_path ("/" ++ p) =
get_full_path p`. -/
theorem get_full_path_strips_and_extends (c : WebDavClient) (p : String) :
    c.get_full_path p = posixJoin c.base_path (lstripSep p) ∧
    (∃ t, c.get_full_path p = c.base_path ++ t) ∧
    c.get_full_path ("/" ++ p) = c.get_full_path p := by
  refine ⟨rfl, posixJoin_lstripSep_extends c.base_path p, ?_⟩
  show posixJoin c.base_path (lstripSep ("/" ++ p)) = posixJoin c.base_path (lstripSep p)
  rw [lstripSep_cons_sep]

/- ## C3: delete never raises -/

/-- C3: for every server response, `delete` returns normally: the
`WebDavError` a protocol mismatch raises is suppressed inside `delete`. -/
theorem delete_never_raises (c : WebDavClient) (server : Server) (p : String) :
    (c.delete server p).2 = .ok () := by
  by_cases h : (server DELETE (sendUrl c p)).status_code ∈ EXPECTED_CODES "delete"
  · simp only [WebDavClient.delete, _send_eq, if_pos h]
  · simp only [WebDavClient.delete, _send_eq, if_neg h]

/- ## C4: exists -/

/-- C4: `exists` returns `false` iff the server answers 404; it returns
`true` on 200 and on 301; and on any status code outside {200, 301, 404} it
raises the protocol error instead of returning a boolean. -/
theorem exists_false_iff_not_found (c : WebDavClient) (server : Server) (p : String) :
    ((c.exists_ server p).2 = .ok false ↔
      (server HEAD (sendUrl c p)).status_code = 404) ∧
    ((server HEAD (sendUrl c p)).status_code = 200 ∨
        (server HEAD (sendUrl c p)).status_code = 301 →
      (c.exists_ server p).2 = .ok true) ∧
    ((server HEAD (sendUrl c p)).status_code ∉ ([200, 301, 404] : List Nat) →
      (c.exists_ server p).2 = .error (.webdav ⟨"HEAD",
        (server HEAD (sendUrl c p)).status_code, (server HEAD (sendUrl c p)).reason⟩)) := by
  have he : (c.exists_ server p).2 =
      ((c._send server HEAD p (EXPECTED_CODES "exists") none).2).map
        (fun resp => resp.status_code != NOT_FOUND_CODE) := rfl
  refine ⟨⟨?_, ?_⟩, ?_, ?_⟩
  · intro hok
    by_cases hmem : (server HEAD (sendUrl c p)).status_code ∈ EXPECTED_CODES "exists"
    · rw [he, _send_snd_ok c server HEAD p (EXPECTED_CODES "exists") none hmem] at hok
      simpa [Except.map, NOT_FOUND_CODE] using hok
    · rw [he, _send_snd_err c server HEAD p (EXPECTED_CODES "exists") none hmem] at hok
      simp [Except.map] at hok
  · intro h404
    have hmem : (server HEAD (sendUrl c p)).status_code ∈ EXPECTED_CODES "exists" := by
      show _ ∈ [200, 301, 404]
      simp [h404]
    rw [he, _send_snd_ok c server HEAD p (EXPECTED_CODES "exists") none hmem]
    simp [Except.map, NOT_FOUND_CODE, h404]
  · intro h2
    have hmem : (server HEAD (sendUrl c p)).status_code ∈ EXPECTED_CODES "exists" := by
      show _ ∈ [200, 301, 404]
      rcases h2 with h | h <;> simp [h]
    rw [he, _send_snd_ok c server HEAD p (EXPECTED_CODES "exists") none hmem]
    rcases h2 with h | h <;> simp [Except.map, NOT_FOUND_CODE, h]
  · intro hmem
    rw [he, _send_snd_err c server HEAD p (EXPECTED_CODES "exists") none hmem]
    simp [Except.map, HEAD]

/-- Witness for C4 at concrete responses: 404 gives `false`, 200 gives
`true`, 500 raises. -/
theorem exists_false_iff_not_found_witness :
    (cW.exists_ (constServer 404 "Not Found" noHeaders) "f").2 = .ok false ∧
    (cW.exists_ (constServer 200 "OK" noHeaders) "f").2 = .ok true ∧
    (cW.exists_ (constServer 500 "Server Error" noHeaders) "f").2 =
      .error (.webdav ⟨"HEAD", 500, "Server Error"⟩) :=
  ⟨(exists_false_iff_not_found cW (constServer 404 "Not Found" noHeaders) "f").1.mpr rfl,
   (exists_false_iff_not_found cW (constServer 200 "OK" noHeaders) "f").2.1 (Or.inl rfl),
   (exists_false_iff_not_found cW (constServer 500 "Server Error" noHeaders) "f").2.2
     (by decide)⟩

/- ## C5: mkdir -/

/-- C5: `mkdir` returns normally exactly on status codes 201, 301, 405, and
raises `WebDavError` carrying the verb `MKCOL`, the status code and the
reason phrase on any other status code. -/
theorem mkdir_expected_codes (c : WebDavClient) (server : Server) (p : String) :
    ((server MKDIR (sendUrl c p)).status_code ∈ ([201, 301, 405] : List Nat) →
      (c.mkdir server p).2 = .ok ()) ∧
    ((server MKDIR (sendUrl c p)).status_code ∉ ([201, 301, 405] : List Nat) →
      (c.mkdir server p).2 = .error (.webdav ⟨"MKCOL",
        (server MKDIR (sendUrl c p)).status_code, (server MKDIR (sendUrl c p)).reason⟩)) := by
  have he : (c.mkdir server p).2 =
      ((c._send server MKDIR p (EXPECTED_CODES "mkdir") none).2).map (fun _ => ()) := rfl
  constructor
  · intro h
    rw [he, _send_snd_ok c server MKDIR p (EXPECTED_CODES "mkdir") none h]
    rfl
  · intro h
    rw [he, _send_snd_err c server MKDIR p (EXPECTED_CODES "mkdir") none h]
    rfl

/-- Witness for C5: 201, 301 and 405 return normally, 500 raises the
`MKCOL` protocol error. -/
theorem mkdir_expected_codes_witness :
    (cW.mkdir (constServer 201 "Created" noHeaders) "d").2 = .ok () ∧
    (cW.mkdir (constServer 301 "Moved" noHeaders) "d").2 = .ok () ∧
    (cW.mkdir (constServer 405 "Not Allowed" noHeaders) "d").2 = .ok () ∧
    (cW.mkdir (constServer 500 "Server Error" noHeaders) "d").2 =
      .error (.webdav ⟨"MKCOL", 500, "Server Error"⟩) :=
  ⟨(mkdir_expected_codes cW (constServer 201 "Created" noHeaders) "d").1 (by decide),
   (mkdir_expected_codes cW (constServer 301 "Moved" noHeaders) "d").1 (by decide),
   (mkdir_expected_codes cW (constServer 405 "Not Allowed" noHeaders) "d").1 (by decide),
   (mkdir_expected_codes cW (constServer 500 "Server Error" noHeaders) "d").2 (by decide)⟩

/- ## C6: upload -/

/-- C6: `upload` returns the destination path on status codes 200, 201, 204
and raises the protocol error on any other status code; and when the source
is a local path, the file is opened before the request and closed after it —
also when the request raised. -/
theorem upload_contract (c : WebDavClient) (server : Server) (src : UploadSource)
    (dest : String) (mode : String) :
    ((server PUT (sendUrl c dest)).status_code ∈ ([200, 201, 204] : List Nat) →
      (c.upload server src dest mode).2 = .ok dest) ∧
    ((server PUT (sendUrl c dest)).status_code ∉ ([200, 201, 204] : List Nat) →
      (c.upload server src dest mode).2 = .error (.webdav ⟨"PUT",
        (server PUT (sendUrl c dest)).status_code, (server PUT (sendUrl c dest)).reason⟩)) ∧
    (∀ q, src = .path q →
      (c.upload server src dest mode).1 =
        [.fileOpen q mode, .request "PUT" (sendUrl c dest) (some (.path q)),
         .fileClose q]) := by
  refine ⟨?_, ?_, ?_⟩
  · intro h
    cases src with
    | path q =>
      have he : (c.upload server (.path q) dest mode).2 =
          ((c._send server PUT dest (EXPECTED_CODES "upload") (some (.path q))).2).map
            (fun _ => dest) := rfl
      rw [he, _send_snd_ok c server PUT dest (EXPECTED_CODES "upload") (some (.path q)) h]
      rfl
    | fileobj contents =>
      have he : (c.upload server (.fileobj contents) dest mode).2 =
          ((c._send server PUT dest (EXPECTED_CODES "upload")
            (some (.fileobj contents))).2).map (fun _ => dest) := rfl
      rw [he, _send_snd_ok c server PUT dest (EXPECTED_CODES "upload")
        (some (.fileobj contents)) h]
      rfl
  · intro h
    cases src with
    | path q =>
      have he : (c.upload server (.path q) dest mode).2 =
          ((c._send server PUT dest (EXPECTED_CODES "upload") (some (.path q))).2).map
            (fun _ => dest) := rfl
      rw [he, _send_snd_err c server PUT dest (EXPECTED_CODES "upload") (some (.path q)) h]
      rfl
    | fileobj contents =>
      have he : (c.upload server (.fileobj contents) dest mode).2 =
          ((c._send server PUT dest (EXPECTED_CODES "upload")
            (some (.fileobj contents))).2).map (fun _ => dest) := rfl
      rw [he, _send_snd_err c server PUT dest (EXPECTED_CODES "upload")
        (some (.fileobj contents)) h]
      rfl
  · intro q hq
    subst hq
    rfl

/-- Witness for C6: a path-source upload on 201 returns the destination and
opens then closes the local file around the PUT; on 403 it raises while
still closing the file. -/
theorem upload_contract_witness :
    (cW.upload (constServer 201 "Created" noHeaders) (.path "/tmp/f") "/remote/f.txt"
      "rb").2 = .ok "/remote/f.txt" ∧
    (cW.upload (constServer 403 "Forbidden" noHeaders) (.path "/tmp/f") "/remote/f.txt"
      "rb").2 = .error (.webdav ⟨"PUT", 403, "Forbidden"⟩) ∧
    (cW.upload (constServer 403 "Forbidden" noHeaders) (.path "/tmp/f") "/remote/f.txt"
      "rb").1 =
      [.fileOpen "/tmp/f" "rb",
       .request "PUT" (sendUrl cW "/remote/f.txt") (some (.path "/tmp/f")),
       .fileClose "/tmp/f"] :=
  ⟨(upload_contract cW (constServer 201 "Created" noHeaders) (.path "/tmp/f")
      "/remote/f.txt" "rb").1 (by decide),
   (upload_contract cW (constServer 403 "Forbidden" noHeaders) (.path "/tmp/f")
      "/remote/f.txt" "rb").2.1 (by decide),
   (upload_contract cW (constServer 403 "Forbidden" noHeaders) (.path "/tmp/f")
      "/remote/f.txt" "rb").2.2 "/tmp/f" rfl⟩

/- ## C7: size -/

/-- C7: on an expected status code (200 or 301), `size` returns 0 when the
`content-length` header is absent and the header's exact integer value when
it is present. -/
theorem size_content_length (c : WebDavClient) (server : Server) (p : String)
    (hst : (server HEAD (sendUrl c p)).status_code ∈ ([200, 301] : List Nat)) :
    ((server HEAD (sendUrl c p)).headers.contentLength = none →
      (c.size server p).2 = .ok 0) ∧
    (∀ n, (server HEAD (sendUrl c p)).headers.contentLength = some n →
      (c.size server p).2 = .ok n) := by
  have he : (c.size server p).2 =
      ((c._send server HEAD p (EXPECTED_CODES "size") none).2).map
        (fun resp => resp.headers.contentLength.getD 0) := rfl
  rw [he, _send_snd_ok c server HEAD p (EXPECTED_CODES "size") none hst]
  constructor
  · intro hnone
    simp [Except.map, hnone]
  · intro n hsome
    simp [Except.map, hsome]

/-- Witness for C7: header value 42 yields 42; an absent header yields 0. -/
theorem size_content_length_witness :
    (cW.size (constServer 200 "OK" ⟨some 42, none⟩) "f").2 = .ok 42 ∧
    (cW.size (constServer 200 "OK" noHeaders) "f").2 = .ok 0 :=
  ⟨(size_content_length cW (constServer 200 "OK" ⟨some 42, none⟩) "f" (by decide)).2
      42 rfl,
   (size_content_length cW (constServer 200 "OK" noHeaders) "f" (by decide)).1 rfl⟩

/- ## C8: modified_time -/

/-- C8: on an expected status code (200, 301 or 404), `modified_time` returns
no timestamp when the `last-modified` header is absent, and the timestamp
`strptime` parses with the fixed header pattern when it is present; the
header value `"Tue, 15 Nov 1994 08:12:31 GMT"` parses to 1994-11-15
08:12:31. -/
theorem modified_time_contract (c : WebDavClient) (server : Server) (p : String)
    (hst : (server HEAD (sendUrl c p)).status_code ∈ ([200, 301, 404] : List Nat)) :
    ((server HEAD (sendUrl c p)).headers.lastModified = none →
      (c.modified_time server p).2 = .ok none) ∧
    (∀ s dt, (server HEAD (sendUrl c p)).headers.lastModified = some s →
      strptimeHeaders s = some dt →
      (c.modified_time server p).2 = .ok (some dt)) ∧
    strptimeHeaders "Tue, 15 Nov 1994 08:12:31 GMT" =
      some ⟨1994, 11, 15, 8, 12, 31⟩ := by
  have hmem : (server HEAD (sendUrl c p)).status_code ∈ EXPECTED_CODES "modified_time" :=
    hst
  refine ⟨?_, ?_, by decide⟩
  · intro hnone
    simp only [WebDavClient.modified_time, _send_eq, if_pos hmem, hnone]
  · intro s dt hsome hparse
    simp only [WebDavClient.modified_time, _send_eq, if_pos hmem, hsome, hparse]

/-- Witness for C8: the example header yields the 1994-11-15 08:12:31
timestamp, and an absent header yields no value. -/
theorem modified_time_contract_witness :
    (cW.modified_time
      (constServer 200 "OK" ⟨none, some "Tue, 15 Nov 1994 08:12:31 GMT"⟩) "f").2 =
      .ok (some ⟨1994, 11, 15, 8, 12, 31⟩) ∧
    (cW.modified_time (constServer 200 "OK" noHeaders) "f").2 = .ok none :=
  ⟨(modified_time_contract cW
      (constServer 200 "OK" ⟨none, some "Tue, 15 Nov 1994 08:12:31 GMT"⟩) "f"
      (by decide)).2.1 "Tue, 15 Nov 1994 08:12:31 GMT" ⟨1994, 11, 15, 8, 12, 31⟩ rfl
      (by decide),
   (modified_time_contract cW (constServer 200 "OK" noHeaders) "f" (by decide)).1 rfl⟩

/- ## C10: url versus the dispatch URL -/

/-- C10: `url` builds its URL without the configured port while the dispatch
primitive `_send` targets the same resolved path with the configured port, so
for a client constructed with a port the two URLs differ. -/
theorem url_omits_configured_port (c : WebDavClient) (n : Nat) (p : String)
    (server : Server) (m : String) (codes : List Nat) (d : Option UploadSource)
    (hport : c.port = some n) :
    c.url p = construct_url c.base_url (c.get_full_path p) none ∧
    (c._send server m p codes d).1 = [.request m (sendUrl c p) d] ∧
    sendUrl c p = construct_url c.base_url (c.get_full_path p) (some n) ∧
    c.url p ≠ sendUrl c p := by
  refine ⟨rfl, rfl, ?_, ?_⟩
  · show construct_url c.base_url (c.get_full_path p) c.port = _
    rw [hport]
  · intro h
    have hp := congrArg Url.port h
    simp only [WebDavClient.url, sendUrl, construct_url, hport] at hp
    exact Option.noConfusion hp

/- ## Lemmas on the upload_dir loop -/

/-- Pushing `Except.map` through a conditional outcome. -/
theorem except_map_ite {ε α β : Type} (f : α → β) (cnd : Prop) [Decidable cnd]
    (a : α) (e : ε) :
    (if cnd then Except.ok a else Except.error e).map f =
      if cnd then Except.ok (f a) else Except.error e := by
  by_cases h : cnd <;> simp [h, Except.map]

/-- One `upload_dir` iteration, when the split of the walked file path around
`local_path` yields exactly a leading empty piece and a relative part `r`:
the file is opened, PUT to the target for `r`, closed, and the outcome is
classified against the `upload` expected codes. -/
theorem uploadDirStep_eq (c : WebDavClient) (server : Server)
    (remote_path local_path f r : String)
    (h : pySplit f local_path = ["", r]) :
    uploadDirStep c server remote_path local_path f =
      (uploadEventsFor c remote_path f r,
       if (server "PUT" (uploadTarget c remote_path r)).status_code ∈
           EXPECTED_CODES "upload" then
         .ok ()
       else .error (.webdav ⟨"PUT",
         (server "PUT" (uploadTarget c remote_path r)).status_code,
         (server "PUT" (uploadTarget c remote_path r)).reason⟩)) := by
  simp only [WebDavClient.uploadDirStep, h, WebDavClient.upload, _send_eq,
    except_map_ite, uploadEventsFor, uploadTarget, sendUrl, PUT,
    List.cons_append, List.nil_append]

/-- No iteration of the `upload_dir` loop ever issues an MKCOL request. -/
theorem uploadDirStep_no_mkdir (c : WebDavClient) (server : Server)
    (remote_path local_path f : String) (u : Url) (d : Option UploadSource) :
    Event.request "MKCOL" u d ∉ (uploadDirStep c server remote_path local_path f).1 := by
  rcases hsp : pySplit f local_path with _ | ⟨a, _ | ⟨b, _ | ⟨e, rest⟩⟩⟩ <;>
    simp [WebDavClient.uploadDirStep, hsp, WebDavClient.upload, _send_eq, PUT]

/-- The `upload_dir` loop over a prefix whose every file splits cleanly and
whose every PUT is accepted: the prefix contributes its uploads in order and
the loop continues with the rest. -/
theorem uploadDirGo_append (c : WebDavClient) (server : Server)
    (remote_path local_path : String) (rel : String → String) (l₁ l₂ : List String)
    (hsplit : ∀ f ∈ l₁, pySplit f local_path = ["", rel f])
    (hok : ∀ f ∈ l₁, (server "PUT" (uploadTarget c remote_path (rel f))).status_code ∈
      EXPECTED_CODES "upload") :
    uploadDirGo c server remote_path local_path (l₁ ++ l₂) =
      (l₁.flatMap (fun f => uploadEventsFor c remote_path f (rel f)) ++
        (uploadDirGo c server remote_path local_path l₂).1,
       (uploadDirGo c server remote_path local_path l₂).2) := by
  induction l₁ with
  | nil => rfl
  | cons f fs ih =>
    have h1 := hsplit f (by simp)
    have h2 := hok f (by simp)
    rw [List.cons_append]
    simp only [WebDavClient.uploadDirGo]
    rw [uploadDirStep_eq c server remote_path local_path f (rel f) h1, if_pos h2]
    rw [ih (fun g hg => hsplit g (by simp [hg])) (fun g hg => hok g (by simp [hg]))]
    simp [List.flatMap_cons, List.append_assoc]

/-- The `upload_dir` loop never issues an MKCOL request, whatever the files,
the split results and the server's answers. -/
theorem uploadDirGo_no_mkdir (c : WebDavClient) (server : Server)
    (remote_path local_path : String) (l : List String) (u : Url)
    (d : Option UploadSource) :
    Event.request "MKCOL" u d ∉ (uploadDirGo c server remote_path local_path l).1 := by
  induction l with
  | nil => simp [WebDavClient.uploadDirGo]
  | cons f fs ih =>
    have hne := uploadDirStep_no_mkdir c server remote_path local_path f u d
    simp only [WebDavClient.uploadDirGo]
    rcases hstep : uploadDirStep c server remote_path local_path f with ⟨ev, r⟩
    rw [hstep] at hne
    cases r with
    | ok a =>
      intro hmem
      rcases List.mem_append.mp hmem with hmem | hmem
      · exact hne hmem
      · exact ih hmem
    | error e => exact hne

/-- Function `opensOf` distributes over appended event lists. -/
theorem opensOf_append (a b : List Event) :
    opensOf (a ++ b) = opensOf a ++ opensOf b := by
  simp [opensOf, List.filterMap_append]

/-- One upload opens exactly its file. -/
theorem opensOf_uploadEventsFor (c : WebDavClient) (remote_path f r : String) :
    opensOf (uploadEventsFor c remote_path f r) = [f] := by
  simp [opensOf, uploadEventsFor, List.filterMap]

/-- A run of uploads opens exactly the uploaded files, in order. -/
theorem opensOf_flatMap_uploadEventsFor (c : WebDavClient) (remote_path : String)
    (rel : String → String) (l : List String) :
    opensOf (l.flatMap (fun f => uploadEventsFor c remote_path f (rel f))) = l := by
  induction l with
  | nil => simp [opensOf]
  | cons f fs ih =>
    rw [List.flatMap_cons, opensOf_append, opensOf_uploadEventsFor, ih]
    rfl

/- ## C1: upload_dir uploads every walked file -/

/-- C1 (amended): provided `local_root` occurs in every walked file path
exactly once — namely as its leading prefix, so that the split yields exactly
the empty piece and the remainder `rel f` with `local_root ++ rel f = f` —
and every PUT is accepted, `upload_dir` issues exactly one upload per regular
file of the tree, in the order the depth-first walk yields them, each
targeting `remote_root` joined with the file's separator-stripped path
relative to `local_root`. (Without the occurs-once proviso the claim fails:
see the counterexample, where the split raises `ValueError` and no upload at
all is issued.) -/
theorem upload_dir_uploads_each_file (c : WebDavClient) (server : Server)
    (remote_root local_root : String) (tree : FSTree) (rel : String → String)
    (hsplit : ∀ f ∈ filepath_generator local_root tree,
      pySplit f local_root = ["", rel f] ∧ local_root ++ rel f = f)
    (hok : ∀ f ∈ filepath_generator local_root tree,
      (server "PUT" (uploadTarget c remote_root (rel f))).status_code ∈
        EXPECTED_CODES "upload") :
    c.upload_dir server remote_root local_root tree =
      ((filepath_generator local_root tree).flatMap
        (fun f => uploadEventsFor c remote_root f (rel f)), .ok ()) := by
  have h := uploadDirGo_append c server remote_root local_root rel
    (filepath_generator local_root tree) [] (fun f hf => (hsplit f hf).1) hok
  rw [List.append_nil] at h
  simpa [WebDavClient.upload_dir, WebDavClient.uploadDirGo] using h

/-- Counterexample to C1 as stated: in the tree `root/root.txt` the walked
file path contains the local root `"root"` twice as a substring, the
two-variable unpacking of `split` raises `ValueError`, and `upload_dir`
issues no upload at all for the tree's one file. -/
theorem upload_dir_substring_split_counterexample :
    filepath_generator "root" (.node "root" ["root.txt"] .nil) = ["root/root.txt"] ∧
    pySplit "root/root.txt" "root" = ["", "/", ".txt"] ∧
    cW.upload_dir (constServer 201 "Created" noHeaders) "/dest" "root"
      (.node "root" ["root.txt"] .nil) = ([], .error .valueError) := by decide

/-- Witness for C1 on the spec's example tree `root/a.txt`, `root/sub/b.txt`:
exactly two uploads, to `/dest/a.txt` and `/dest/sub/b.txt`, in walk order. -/
theorem upload_dir_uploads_each_file_witness :
    cW.upload_dir (constServer 201 "Created" noHeaders) "/dest" "root" wTree =
      ([.fileOpen "root/a.txt" "rb",
        .request "PUT" ⟨"example.com", "/base/dest/a.txt", none⟩
          (some (.path "root/a.txt")),
        .fileClose "root/a.txt",
        .fileOpen "root/sub/b.txt" "rb",
        .request "PUT" ⟨"example.com", "/base/dest/sub/b.txt", none⟩
          (some (.path "root/sub/b.txt")),
        .fileClose "root/sub/b.txt"], .ok ()) := by
  have h := upload_dir_uploads_each_file cW (constServer 201 "Created" noHeaders)
    "/dest" "root" wTree wRel (by decide) (by decide)
  exact h.trans (by decide)

/- ## C9: sequential uploads, first error aborts, no mkdir -/

/-- C9: `upload_dir` attempts its uploads strictly sequentially in walk
order; when every file before position `k` splits cleanly and is accepted
and the PUT of the file at position `k` is rejected, the raised protocol
error aborts the traversal: exactly the files up to and including the failing
one were opened for upload and every later file is never touched; and no
MKCOL request is ever issued for intermediate directories. -/
theorem upload_dir_aborts_on_first_error (c : WebDavClient) (server : Server)
    (remote_root local_root : String) (tree : FSTree) (rel : String → String) (k : Nat)
    (hk : k < (filepath_generator local_root tree).length)
    (hsplit : ∀ f ∈ (filepath_generator local_root tree).take k,
      pySplit f local_root = ["", rel f])
    (hok : ∀ f ∈ (filepath_generator local_root tree).take k,
      (server "PUT" (uploadTarget c remote_root (rel f))).status_code ∈
        EXPECTED_CODES "upload")
    (hsplitk : pySplit ((filepath_generator local_root tree).get ⟨k, hk⟩) local_root =
      ["", rel ((filepath_generator local_root tree).get ⟨k, hk⟩)])
    (hfail : (server "PUT" (uploadTarget c remote_root
        (rel ((filepath_generator local_root tree).get ⟨k, hk⟩)))).status_code ∉
      EXPECTED_CODES "upload") :
    (c.upload_dir server remote_root local_root tree).2 =
      .error (.webdav ⟨"PUT",
        (server "PUT" (uploadTarget c remote_root
          (rel ((filepath_generator local_root tree).get ⟨k, hk⟩)))).status_code,
        (server "PUT" (uploadTarget c remote_root
          (rel ((filepath_generator local_root tree).get ⟨k, hk⟩)))).reason⟩) ∧
    opensOf (c.upload_dir server remote_root local_root tree).1 =
      (filepath_generator local_root tree).take k ++
        [(filepath_generator local_root tree).get ⟨k, hk⟩] ∧
    ∀ u d, Event.request "MKCOL" u d ∉
      (c.upload_dir server remote_root local_root tree).1 := by
  have hgo2 : uploadDirGo c server remote_root local_root
      ((filepath_generator local_root tree).get ⟨k, hk⟩ ::
        (filepath_generator local_root tree).drop (k + 1)) =
      (uploadEventsFor c remote_root ((filepath_generator local_root tree).get ⟨k, hk⟩)
        (rel ((filepath_generator local_root tree).get ⟨k, hk⟩)),
       .error (.webdav ⟨"PUT",
        (server "PUT" (uploadTarget c remote_root
          (rel ((filepath_generator local_root tree).get ⟨k, hk⟩)))).status_code,
        (server "PUT" (uploadTarget c remote_root
          (rel ((filepath_generator local_root tree).get ⟨k, hk⟩)))).reason⟩)) := by
    simp only [WebDavClient.uploadDirGo]
    rw [uploadDirStep_eq c server remote_root local_root _ _ hsplitk, if_neg hfail]
  have hdecomp : filepath_generator local_root tree =
      (filepath_generator local_root tree).take k ++
        ((filepath_generator local_root tree).get ⟨k, hk⟩ ::
          (filepath_generator local_root tree).drop (k + 1)) := by
    conv_lhs => rw [← List.take_append_drop k (filepath_generator local_root tree)]
    rw [List.drop_eq_getElem_cons hk, List.get_eq_getElem]
  have hrun : c.upload_dir server remote_root local_root tree =
      (((filepath_generator local_root tree).take k).flatMap
          (fun f => uploadEventsFor c remote_root f (rel f)) ++
        uploadEventsFor c remote_root ((filepath_generator local_root tree).get ⟨k, hk⟩)
          (rel ((filepath_generator local_root tree).get ⟨k, hk⟩)),
       .error (.webdav ⟨"PUT",
        (server "PUT" (uploadTarget c remote_root
          (rel ((filepath_generator local_root tree).get ⟨k, hk⟩)))).status_code,
        (server "PUT" (uploadTarget c remote_root
          (rel ((filepath_generator local_root tree).get ⟨k, hk⟩)))).reason⟩)) := by
    have h1 := congrArg (uploadDirGo c server remote_root local_root) hdecomp
    rw [uploadDirGo_append c server remote_root local_root rel _ _ hsplit hok, hgo2] at h1
    exact h1
  refine ⟨by rw [hrun], ?_, ?_⟩
  · rw [hrun]
    show opensOf (_ ++ _) = _
    rw [opensOf_append, opensOf_flatMap_uploadEventsFor, opensOf_uploadEventsFor]
  · intro u d
    exact uploadDirGo_no_mkdir c server remote_root local_root _ u d

/-- Witness for C9: on the example tree, a server rejecting the first file's
PUT with 403 makes `upload_dir` raise the protocol error after opening only
`root/a.txt`; `root/sub/b.txt` is never attempted. -/
theorem upload_dir_aborts_on_first_error_witness :
    (cW.upload_dir failServer "/dest" "root" wTree).2 =
      .error (.webdav ⟨"PUT", 403, "Forbidden"⟩) ∧
    opensOf (cW.upload_dir failServer "/dest" "root" wTree).1 = ["root/a.txt"] := by
  have h := upload_dir_aborts_on_first_error cW failServer "/dest" "root" wTree wRel 0
    (by decide) (by decide) (by decide) (by decide) (by decide)
  exact ⟨h.1.trans (by decide), h.2.1.trans (by decide)⟩

/-- Witness for C10 at a client configured with port 8080. -/
theorem url_omits_configured_port_witness :
    cWport.url "f" = construct_url "example.com" "/base/f" none ∧
    (cWport._send (constServer 200 "OK" noHeaders) "HEAD" "f" [200] none).1 =
      [.request "HEAD" (construct_url "example.com" "/base/f" (some 8080)) none] ∧
    cWport.url "f" ≠ sendUrl cWport "f" := by
  have h := url_omits_configured_port cWport 8080 "f" (constServer 200 "OK" noHeaders)
    "HEAD" [200] none rfl
  exact ⟨by decide, by decide, h.2.2.2⟩

end WebDav
